import Mathlib

/-!
# SEisPro: `conv.cpp`, the .dat to .SEGY conversion

A shallow embedding of `convertDatToSegy` and `main` from `src/conv.cpp`, and the
properties of the conversion stated over it.

The routine talks to the outside through four things: the file it reads, the file
it writes, standard output and standard error.  They are gathered in a `World`,
and every statement of the routine becomes a function on it, in source order.

How the C++ stream library and the operating system are modelled (everything else
is the source):

* the routine hands a name to the operating system, which resolves it to a file;
  several names (`input.dat` and `./input.dat`, or a link) may resolve to one file,
  and what is stored is keyed by the file, not by the name;
* a name resolves to a regular file with its bytes, to a directory, or to nothing;
* opening a `std::ifstream` succeeds on anything that exists and may be read, a
  directory included; reading an open directory fails inside the stream buffer,
  which throws, and since the routine catches nothing the exception leaves it;
* opening a `std::ofstream` succeeds on a name that may be written and is not a
  directory, and then creates the file or truncates it to length zero;
* a write stores what fits under the file size limit of the process (unlimited
  unless one is set); the routine does not test its writes;
* `stream << text << std::endl` adds the line `text` to the stream; `cout` and
  `cerr` record the lines the statements of the program send, not what the C++
  runtime prints of its own when it aborts the process.
-/

namespace SEisPro

/-! ## Data model -/

/-- One `char` of a binary stream, as its value below 256. -/
abbrev Byte := Fin 256

/-- A `std::string` holding a file name. -/
abbrev Path := String

/-- The identity of a file, what a name resolves to. -/
abbrev FileId := Nat

/-- What can be found under a name: a regular file with its bytes, or a directory. -/
inductive Node where
  | file (content : List Byte)
  | dir
  deriving DecidableEq

/-- The state of the filesystem: the file each name resolves to, what each file is
(`none`: it does not exist), and whether an open for reading, respectively for
writing, of the file is permitted. -/
structure FileSystem where
  resolve : Path → FileId
  nodes : FileId → Option Node
  readable : FileId → Bool
  writable : FileId → Bool

/-- What a name currently leads to. -/
def FileSystem.lookup (fs : FileSystem) (p : Path) : Option Node :=
  fs.nodes (fs.resolve p)

/-- Everything the routine can observe or change: the filesystem and the lines
written so far to `std::cout` and `std::cerr`. -/
structure World where
  fs : FileSystem
  cout : List String
  cerr : List String

/-- A constructed `std::ifstream`: the file it is open on, `none` after a failed open. -/
structure IfStream where
  handle : Option FileId

/-- A constructed `std::ofstream`: the file it is open on, `none` after a failed open. -/
structure OfStream where
  handle : Option FileId

/-- How a call of the routine ends: it returns, or an exception leaves it.  Either
way the world at that moment is kept. -/
inductive Run where
  | returned (w : World)
  | threw (w : World)

/-- The world at the end of a call. -/
def Run.world : Run → World
  | Run.returned w => w
  | Run.threw w => w

/-- Whether the call returned to its caller. -/
def Run.didReturn : Run → Bool
  | Run.returned _ => true
  | Run.threw _ => false

/-- How the process ends: `main` returns a status, or an exception nobody caught
reaches `std::terminate` and the process is aborted. -/
inductive ProcessEnd where
  | exited (status : Int) (w : World)
  | aborted (w : World)

/-- The exit status `main` returned, `none` for an aborted process. -/
def ProcessEnd.exitStatus : ProcessEnd → Option Int
  | ProcessEnd.exited status _ => some status
  | ProcessEnd.aborted _ => none

/-! ## The stream operations the routine uses -/

/-- `std::ifstream s(p, std::ios::binary)`: the open succeeds on whatever exists
under the name and may be read, and leaves the filesystem as it is. -/
def ifstream_ctor (fs : FileSystem) (p : Path) : IfStream :=
  match fs.lookup p with
  | some _ => if fs.readable (fs.resolve p) then ⟨some (fs.resolve p)⟩ else ⟨none⟩
  | none => ⟨none⟩

/-- `s.is_open()` on an input stream. -/
def IfStream.is_open (s : IfStream) : Bool :=
  s.handle.isSome

/-- `std::vector<char> data(std::istreambuf_iterator<char>(s), std::istreambuf_iterator<char>())`:
every byte of the stream, from the first to the end of the file, in order.  On an
open directory the first read fails and the stream buffer throws: `none`.  A
stream that is not open is at its end at once. -/
def IfStream.readAll (fs : FileSystem) (s : IfStream) : Option (List Byte) :=
  match s.handle with
  | some f =>
    match fs.nodes f with
    | some (Node.file content) => some content
    | some Node.dir => none
    | none => some []
  | none => some []

/-- `std::ofstream s(p, std::ios::binary)`: the open is refused on a directory and
where writing is not permitted, and then nothing changes; otherwise the file is
created, or truncated to length zero. -/
def ofstream_ctor (fs : FileSystem) (p : Path) : FileSystem × OfStream :=
  match fs.lookup p with
  | some Node.dir => (fs, ⟨none⟩)
  | _ =>
    if fs.writable (fs.resolve p) then
      ({ fs with nodes := Function.update fs.nodes (fs.resolve p) (some (Node.file [])) },
        ⟨some (fs.resolve p)⟩)
    else
      (fs, ⟨none⟩)

/-- `s.is_open()` on an output stream. -/
def OfStream.is_open (s : OfStream) : Bool :=
  s.handle.isSome

/-- The part of `buf` that a file of `size` bytes can still take under the file
size limit of the process (`none`: no limit). -/
def fits (fsizeLimit : Option Nat) (size : Nat) (buf : List Byte) : List Byte :=
  match fsizeLimit with
  | none => buf
  | some limit => buf.take (limit - size)

/-- `s.write(buf, count)`: of the first `count` bytes of `buf`, those that fit are
added at the end of the file the stream is open on.  Once the limit is reached
nothing fits any more, so later writes add nothing. -/
def OfStream.write (fsizeLimit : Option Nat) (fs : FileSystem) (s : OfStream)
    (buf : List Byte) (count : Nat) : FileSystem :=
  match s.handle with
  | some f =>
    match fs.nodes f with
    | some (Node.file old) =>
      { fs with
        nodes := Function.update fs.nodes f
          (some (Node.file (old ++ fits fsizeLimit old.length (buf.take count)))) }
    | _ => fs
  | none => fs

/-! ## The program -/

/-- The text sent to `std::cerr` when the `.dat` file cannot be opened. -/
def msgErrDat : String := "Erro ao abrir o arquivo .dat"

/-- The text sent to `std::cerr` when the `.SEGY` file cannot be opened. -/
def msgErrSegy : String := "Erro ao abrir o arquivo .SEGY"

/-- The text sent to `std::cout` at the end of a conversion. -/
def msgSuccess : String := "Conversão concluída com sucesso!"

/-- `sizeof(segyHeader)` for `char segyHeader[3200]`. -/
def segyHeaderSize : Nat := 3200

/-- `char segyHeader[3200] = {0}`: 3200 bytes, all zero. -/
def segyHeader : List Byte := List.replicate segyHeaderSize 0

/-- `void convertDatToSegy(const std::string& datFile, const std::string& segyFile)`,
statement by statement, run in a process whose file size limit is `fsizeLimit`. -/
def convertDatToSegy (fsizeLimit : Option Nat) (datFile segyFile : Path) (w : World) : Run :=
  let datStream := ifstream_ctor w.fs datFile
  if !datStream.is_open then
    Run.returned { w with cerr := w.cerr ++ [msgErrDat] }
  else
    match datStream.readAll w.fs with
    | none => Run.threw w
    | some data =>
      let opened := ofstream_ctor w.fs segyFile
      let segyStream := opened.2
      if !segyStream.is_open then
        Run.returned { fs := opened.1, cout := w.cout, cerr := w.cerr ++ [msgErrSegy] }
      else
        let fs1 := segyStream.write fsizeLimit opened.1 segyHeader segyHeaderSize
        let fs2 := segyStream.write fsizeLimit fs1 data data.length
        Run.returned { fs := fs2, cout := w.cout ++ [msgSuccess], cerr := w.cerr }

/-- `int main()`: the conversion on the two fixed names, then `return 0`; an
exception that leaves the conversion is caught nowhere and aborts the process. -/
def main (fsizeLimit : Option Nat) (w : World) : ProcessEnd :=
  let datFile : Path := "input.dat"
  let segyFile : Path := "output.segy"
  match convertDatToSegy fsizeLimit datFile segyFile w with
  | Run.returned w1 => ProcessEnd.exited 0 w1
  | Run.threw w1 => ProcessEnd.aborted w1

/-- What the two writes of the routine leave in a freshly truncated destination
when the source buffer is `data`: the header as far as it fits, then the data as
far as it fits. -/
def stored (fsizeLimit : Option Nat) (data : List Byte) : List Byte :=
  fits fsizeLimit 0 segyHeader ++ fits fsizeLimit (fits fsizeLimit 0 segyHeader).length data

/-! ## Concrete worlds used in the instances below -/

/-- Name resolution in a working directory: `input.dat` and `./input.dat` are file 0,
`output.segy` and `./output.segy` are file 1, every other name is file 2. -/
def resolveCwd (p : Path) : FileId :=
  if p = "input.dat" then 0
  else if p = "./input.dat" then 0
  else if p = "output.segy" then 1
  else if p = "./output.segy" then 1
  else 2

/-- A filesystem holding only `input.dat`, with the bytes 01 02 03 04 05; everything
may be read and written. -/
def fsInputOnly : FileSystem where
  resolve := resolveCwd
  nodes := fun f => if f = 0 then some (Node.file [1, 2, 3, 4, 5]) else none
  readable := fun _ => true
  writable := fun _ => true

/-- The world of `fsInputOnly` with nothing printed yet. -/
def worldInputOnly : World where
  fs := fsInputOnly
  cout := []
  cerr := []

/-- A filesystem with no file at all. -/
def fsEmpty : FileSystem where
  resolve := resolveCwd
  nodes := fun _ => none
  readable := fun _ => true
  writable := fun _ => true

/-- The world of `fsEmpty` with nothing printed yet. -/
def worldEmpty : World where
  fs := fsEmpty
  cout := []
  cerr := []

/-- A filesystem holding `input.dat` (bytes 01 02 03 04 05) in which nothing may be
opened for writing. -/
def fsReadOnly : FileSystem where
  resolve := resolveCwd
  nodes := fun f => if f = 0 then some (Node.file [1, 2, 3, 4, 5]) else none
  readable := fun _ => true
  writable := fun _ => false

/-- The world of `fsReadOnly` with nothing printed yet. -/
def worldReadOnly : World where
  fs := fsReadOnly
  cout := []
  cerr := []

/-- A filesystem in which `input.dat` is empty and `output.segy` already holds 4000
bytes of value 255, more than the conversion will write. -/
def fsStaleOutput : FileSystem where
  resolve := resolveCwd
  nodes := fun f =>
    if f = 0 then some (Node.file [])
    else if f = 1 then some (Node.file (List.replicate 4000 255))
    else none
  readable := fun _ => true
  writable := fun _ => true

/-- The world of `fsStaleOutput` with nothing printed yet. -/
def worldStaleOutput : World where
  fs := fsStaleOutput
  cout := []
  cerr := []

/-- A filesystem whose `input.dat` holds zero bytes, bytes above 0x7F and line-end
bytes: 00 80 FF 00 0A 0D. -/
def fsBinaryInput : FileSystem where
  resolve := resolveCwd
  nodes := fun f => if f = 0 then some (Node.file [0x00, 0x80, 0xFF, 0x00, 0x0A, 0x0D]) else none
  readable := fun _ => true
  writable := fun _ => true

/-- The world of `fsBinaryInput` with nothing printed yet. -/
def worldBinaryInput : World where
  fs := fsBinaryInput
  cout := []
  cerr := []

/-- A filesystem with no `input.dat` and an `output.segy` holding 09 09. -/
def fsOutputOnly : FileSystem where
  resolve := resolveCwd
  nodes := fun f => if f = 1 then some (Node.file [9, 9]) else none
  readable := fun _ => true
  writable := fun _ => true

/-- The world of `fsOutputOnly` with nothing printed yet. -/
def worldOutputOnly : World where
  fs := fsOutputOnly
  cout := []
  cerr := []

/-- A filesystem in which `input.dat` is a directory; everything may be read and
written. -/
def fsInputDir : FileSystem where
  resolve := resolveCwd
  nodes := fun f => if f = 0 then some Node.dir else none
  readable := fun _ => true
  writable := fun _ => true

/-- The world of `fsInputDir` with nothing printed yet. -/
def worldInputDir : World where
  fs := fsInputDir
  cout := []
  cerr := []

/-- A filesystem in which `input.dat` is a directory and nothing may be opened for
writing. -/
def fsInputDirReadOnly : FileSystem where
  resolve := resolveCwd
  nodes := fun f => if f = 0 then some Node.dir else none
  readable := fun _ => true
  writable := fun _ => false

/-- The world of `fsInputDirReadOnly` with nothing printed yet. -/
def worldInputDirReadOnly : World where
  fs := fsInputDirReadOnly
  cout := []
  cerr := []

/-! ## The streams -/

/-- The input stream is open exactly when something exists under the name and may
be read. -/
theorem ifstream_is_open_iff (fs : FileSystem) (p : Path) :
    (ifstream_ctor fs p).is_open = true ↔
      (∃ n, fs.lookup p = some n) ∧ fs.readable (fs.resolve p) = true := by
  unfold ifstream_ctor IfStream.is_open
  cases hf : fs.lookup p <;> cases hr : fs.readable (fs.resolve p) <;> simp

/-- The output stream is open exactly when the name is not a directory and may be
written. -/
theorem ofstream_is_open_iff (fs : FileSystem) (p : Path) :
    (ofstream_ctor fs p).2.is_open = true ↔
      fs.lookup p ≠ some Node.dir ∧ fs.writable (fs.resolve p) = true := by
  unfold ofstream_ctor OfStream.is_open
  cases hw : fs.writable (fs.resolve p) <;> rcases hf : fs.lookup p with _ | (_ | _) <;> simp

/-- What a source name can be: it does not open, it is a readable directory, or it
is a readable regular file. -/
theorem source_cases (fs : FileSystem) (p : Path) :
    (ifstream_ctor fs p).is_open = false ∨
      (fs.lookup p = some Node.dir ∧ fs.readable (fs.resolve p) = true) ∨
      (∃ b, fs.lookup p = some (Node.file b) ∧ fs.readable (fs.resolve p) = true) := by
  cases hs : (ifstream_ctor fs p).is_open
  · exact Or.inl rfl
  · obtain ⟨⟨n, hn⟩, hr⟩ := (ifstream_is_open_iff fs p).1 hs
    cases n with
    | file b => exact Or.inr (Or.inr ⟨b, hn, hr⟩)
    | dir => exact Or.inr (Or.inl ⟨hn, hr⟩)

/-- On a readable regular file the stream opens. -/
theorem ifstream_open_of_file (fs : FileSystem) (p : Path) (b : List Byte)
    (hf : fs.lookup p = some (Node.file b)) (hr : fs.readable (fs.resolve p) = true) :
    (ifstream_ctor fs p).is_open = true :=
  (ifstream_is_open_iff fs p).2 ⟨⟨_, hf⟩, hr⟩

/-- On a readable regular file, `readAll` gives the content of the file. -/
theorem readAll_of_file (fs : FileSystem) (p : Path) (b : List Byte)
    (hf : fs.lookup p = some (Node.file b)) (hr : fs.readable (fs.resolve p) = true) :
    (ifstream_ctor fs p).readAll fs = some b := by
  have hn : fs.nodes (fs.resolve p) = some (Node.file b) := hf
  simp [ifstream_ctor, IfStream.readAll, hf, hr, hn]

/-- On a readable directory, `readAll` throws. -/
theorem readAll_of_dir (fs : FileSystem) (p : Path)
    (hf : fs.lookup p = some Node.dir) (hr : fs.readable (fs.resolve p) = true) :
    (ifstream_ctor fs p).readAll fs = none := by
  have hn : fs.nodes (fs.resolve p) = some Node.dir := hf
  simp [ifstream_ctor, IfStream.readAll, hf, hr, hn]

/-- The header is `segyHeaderSize` bytes long. -/
theorem segyHeader_length : segyHeader.length = segyHeaderSize := by
  simp [segyHeader]

/-- Without a file size limit everything is stored. -/
theorem stored_none (data : List Byte) : stored none data = segyHeader ++ data := rfl

/-! ## The four paths through the routine -/

/-- First path: the source does not open. -/
theorem convert_source_closed (lim : Option Nat) (src dst : Path) (w : World)
    (h : (ifstream_ctor w.fs src).is_open = false) :
    convertDatToSegy lim src dst w = Run.returned { w with cerr := w.cerr ++ [msgErrDat] } := by
  simp [convertDatToSegy, h]

/-- Second path: the source opens on a directory and the read throws. -/
theorem convert_read_throws (lim : Option Nat) (src dst : Path) (w : World)
    (hf : w.fs.lookup src = some Node.dir) (hr : w.fs.readable (w.fs.resolve src) = true) :
    convertDatToSegy lim src dst w = Run.threw w := by
  have hs : (ifstream_ctor w.fs src).is_open = true :=
    (ifstream_is_open_iff w.fs src).2 ⟨⟨_, hf⟩, hr⟩
  simp [convertDatToSegy, hs, readAll_of_dir w.fs src hf hr]

/-- Third path: the source is read, the destination does not open. -/
theorem convert_dest_closed (lim : Option Nat) (src dst : Path) (w : World) (b : List Byte)
    (hf : w.fs.lookup src = some (Node.file b)) (hr : w.fs.readable (w.fs.resolve src) = true)
    (hd : (ofstream_ctor w.fs dst).2.is_open = false) :
    convertDatToSegy lim src dst w = Run.returned { w with cerr := w.cerr ++ [msgErrSegy] } := by
  have hfs : (ofstream_ctor w.fs dst).1 = w.fs := by
    unfold ofstream_ctor OfStream.is_open at *
    cases hw : w.fs.writable (w.fs.resolve dst) <;>
      rcases hl : w.fs.lookup dst with _ | (_ | _) <;> simp_all
  simp [convertDatToSegy, ifstream_open_of_file w.fs src b hf hr, readAll_of_file w.fs src b hf hr,
    hd, hfs]

/-- Fourth path: the source is read and the destination opens. -/
theorem convert_success (lim : Option Nat) (src dst : Path) (w : World) (b : List Byte)
    (hf : w.fs.lookup src = some (Node.file b)) (hr : w.fs.readable (w.fs.resolve src) = true)
    (hd : (ofstream_ctor w.fs dst).2.is_open = true) :
    convertDatToSegy lim src dst w =
      Run.returned
        { fs := { w.fs with
            nodes := Function.update w.fs.nodes (w.fs.resolve dst)
              (some (Node.file (stored lim b))) },
          cout := w.cout ++ [msgSuccess],
          cerr := w.cerr } := by
  obtain ⟨hnd, hw⟩ := (ofstream_is_open_iff w.fs dst).1 hd
  have hopen : ofstream_ctor w.fs dst =
      ({ w.fs with nodes := Function.update w.fs.nodes (w.fs.resolve dst) (some (Node.file [])) },
        ⟨some (w.fs.resolve dst)⟩) := by
    unfold ofstream_ctor
    rcases hl : w.fs.lookup dst with _ | (_ | _)
    · simp [hw]
    · simp [hw]
    · exact absurd hl hnd
  have htake : segyHeader.take segyHeaderSize = segyHeader :=
    List.take_of_length_le (le_of_eq segyHeader_length)
  simp [convertDatToSegy, ifstream_open_of_file w.fs src b hf hr, readAll_of_file w.fs src b hf hr,
    hopen, OfStream.is_open, OfStream.write, htake, stored]

/-- On every path, a call changes nothing but what is stored for the file the
destination name resolves to. -/
theorem convert_frame (lim : Option Nat) (src dst : Path) (w : World) :
    (convertDatToSegy lim src dst w).world.fs.resolve = w.fs.resolve ∧
      (convertDatToSegy lim src dst w).world.fs.readable = w.fs.readable ∧
      (convertDatToSegy lim src dst w).world.fs.writable = w.fs.writable ∧
      ∀ f : FileId, f ≠ w.fs.resolve dst →
        (convertDatToSegy lim src dst w).world.fs.nodes f = w.fs.nodes f := by
  rcases source_cases w.fs src with hs | ⟨hf, hr⟩ | ⟨b, hf, hr⟩
  · rw [convert_source_closed lim src dst w hs]
    exact ⟨rfl, rfl, rfl, fun _ _ => rfl⟩
  · rw [convert_read_throws lim src dst w hf hr]
    exact ⟨rfl, rfl, rfl, fun _ _ => rfl⟩
  · cases hd : (ofstream_ctor w.fs dst).2.is_open
    · rw [convert_dest_closed lim src dst w b hf hr hd]
      exact ⟨rfl, rfl, rfl, fun _ _ => rfl⟩
    · rw [convert_success lim src dst w b hf hr hd]
      exact ⟨rfl, rfl, rfl, fun f hne => Function.update_noteq hne _ _⟩

/-- After a successful call the destination name leads to a regular file holding
what the two writes stored. -/
theorem convert_success_lookup (lim : Option Nat) (src dst : Path) (w : World) (b : List Byte)
    (hf : w.fs.lookup src = some (Node.file b)) (hr : w.fs.readable (w.fs.resolve src) = true)
    (hd : (ofstream_ctor w.fs dst).2.is_open = true) :
    (convertDatToSegy lim src dst w).world.fs.lookup dst = some (Node.file (stored lim b)) := by
  rw [convert_success lim src dst w b hf hr hd]
  exact Function.update_same _ _ _

/-- One call with source and destination names that resolve to one file holding `b`:
the file ends up holding the header followed by `b`. -/
theorem aliased_step (src dst : Path) (w : World) (b : List Byte)
    (hres : w.fs.resolve src = w.fs.resolve dst)
    (hf : w.fs.lookup src = some (Node.file b)) (hr : w.fs.readable (w.fs.resolve src) = true)
    (hd : w.fs.writable (w.fs.resolve dst) = true) :
    (convertDatToSegy none src dst w).world.fs.lookup dst
      = some (Node.file (segyHeader ++ b)) := by
  have hl : w.fs.lookup dst = some (Node.file b) := by
    unfold FileSystem.lookup at hf ⊢
    rw [← hres]
    exact hf
  have hopen : (ofstream_ctor w.fs dst).2.is_open = true :=
    (ofstream_is_open_iff w.fs dst).2 ⟨by rw [hl]; simp, hd⟩
  rw [convert_success_lookup none src dst w b hf hr hopen, stored_none]

/-- Repeated calls with source and destination names that resolve to one file: each
call puts one more header in front of the content. -/
theorem iterate_aliased (src dst : Path) (n : Nat) :
    ∀ (w : World) (b : List Byte), w.fs.resolve src = w.fs.resolve dst →
      w.fs.lookup src = some (Node.file b) → w.fs.readable (w.fs.resolve src) = true →
      w.fs.writable (w.fs.resolve dst) = true →
      ((fun v => (convertDatToSegy none src dst v).world)^[n] w).fs.lookup dst
        = some (Node.file (List.replicate (segyHeaderSize * n) (0 : Byte) ++ b)) := by
  induction n with
  | zero =>
    intro w b hres hf _ _
    show w.fs.nodes (w.fs.resolve dst)
      = some (Node.file (List.replicate (segyHeaderSize * 0) (0 : Byte) ++ b))
    rw [← hres, Nat.mul_zero, List.replicate_zero, List.nil_append]
    exact hf
  | succ k ih =>
    intro w b hres hf hr hd
    rw [Function.iterate_succ_apply]
    obtain ⟨hres1, hread1, hwrite1, _⟩ := convert_frame none src dst w
    have hstep := aliased_step src dst w b hres hf hr hd
    have hres2 : (convertDatToSegy none src dst w).world.fs.resolve src
        = (convertDatToSegy none src dst w).world.fs.resolve dst := by
      rw [hres1]; exact hres
    have hf2 : (convertDatToSegy none src dst w).world.fs.lookup src
        = some (Node.file (segyHeader ++ b)) := by
      unfold FileSystem.lookup at hstep ⊢
      rw [hres2]
      exact hstep
    have hr2 : (convertDatToSegy none src dst w).world.fs.readable
        ((convertDatToSegy none src dst w).world.fs.resolve src) = true := by
      rw [hread1, hres1]; exact hr
    have hd2 : (convertDatToSegy none src dst w).world.fs.writable
        ((convertDatToSegy none src dst w).world.fs.resolve dst) = true := by
      rw [hwrite1, hres1]; exact hd
    show ((fun v => (convertDatToSegy none src dst v).world)^[k]
        (convertDatToSegy none src dst w).world).fs.lookup dst = _
    rw [ih (convertDatToSegy none src dst w).world (segyHeader ++ b) hres2 hf2 hr2 hd2]
    rw [← List.append_assoc, segyHeader, List.append_replicate_replicate, Nat.mul_succ]

/-- Two regular files of different lengths are different. -/
theorem file_ne_of_length (a b : List Byte) (h : a.length ≠ b.length) :
    some (Node.file a) ≠ some (Node.file b) := by
  intro heq
  apply h
  rw [Node.file.inj (Option.some.inj heq)]

/-- Under a file size limit the destination never grows beyond the limit. -/
theorem stored_length_le (limit : Nat) (data : List Byte) :
    (stored (some limit) data).length ≤ limit := by
  simp only [stored, fits, List.length_append, List.length_take]
  omega

/-! ## The claims -/

/-- C1: when the source opens for reading with content `b` and the destination opens
for writing, the conversion returns and the destination holds exactly 3200 zero
bytes followed by `b`. -/
theorem convertDatToSegy_output_content (src dst : Path) (w : World) (b : List Byte)
    (hf : w.fs.lookup src = some (Node.file b)) (hr : w.fs.readable (w.fs.resolve src) = true)
    (hd : (ofstream_ctor w.fs dst).2.is_open = true) :
    (convertDatToSegy none src dst w).didReturn = true ∧
      (convertDatToSegy none src dst w).world.fs.lookup dst
        = some (Node.file (List.replicate 3200 (0 : Byte) ++ b)) := by
  refine ⟨?_, ?_⟩
  · rw [convert_success none src dst w b hf hr hd]
    rfl
  · rw [convert_success_lookup none src dst w b hf hr hd, stored_none]
    rfl

/-- C1 at the scenario of the specification: `input.dat` holds 01 02 03 04 05, and
`output.segy` ends up with 3205 bytes, 3200 zero bytes and then 01 02 03 04 05. -/
theorem convertDatToSegy_output_content_witness :
    (convertDatToSegy none "input.dat" "output.segy" worldInputOnly).world.fs.lookup "output.segy"
        = some (Node.file (List.replicate 3200 (0 : Byte) ++ [1, 2, 3, 4, 5])) ∧
      (List.replicate 3200 (0 : Byte) ++ [1, 2, 3, 4, 5]).length = 3205 :=
  ⟨(convertDatToSegy_output_content "input.dat" "output.segy" worldInputOnly [1, 2, 3, 4, 5]
      rfl rfl rfl).2, by rw [List.length_append, List.length_replicate]; rfl⟩

/-- C2: given a source of `N` bytes that opens and a destination that opens, the
destination has, after the conversion, exactly `3200 + N` bytes, whatever it held
before; for the empty source it is exactly 3200 zero bytes. -/
theorem convertDatToSegy_output_size (src dst : Path) (w : World) (b : List Byte)
    (hf : w.fs.lookup src = some (Node.file b)) (hr : w.fs.readable (w.fs.resolve src) = true)
    (hd : (ofstream_ctor w.fs dst).2.is_open = true) :
    (∃ out : List Byte,
        (convertDatToSegy none src dst w).world.fs.lookup dst = some (Node.file out) ∧
        out.length = 3200 + b.length) ∧
      (b = [] →
        (convertDatToSegy none src dst w).world.fs.lookup dst
          = some (Node.file (List.replicate 3200 (0 : Byte)))) := by
  have hc : (convertDatToSegy none src dst w).world.fs.lookup dst
      = some (Node.file (segyHeader ++ b)) := by
    rw [convert_success_lookup none src dst w b hf hr hd, stored_none]
  refine ⟨⟨segyHeader ++ b, hc, ?_⟩, ?_⟩
  · rw [List.length_append, segyHeader_length]
    rfl
  · intro hb
    rw [hc, hb, List.append_nil]
    rfl

/-- C2 at the empty `input.dat` with a stale `output.segy` of 4000 bytes: the
destination ends up with 3200 bytes, all zero. -/
theorem convertDatToSegy_output_size_witness :
    worldStaleOutput.fs.lookup "output.segy"
        = some (Node.file (List.replicate 4000 (255 : Byte))) ∧
      (∃ out : List Byte,
        (convertDatToSegy none "input.dat" "output.segy" worldStaleOutput).world.fs.lookup
            "output.segy" = some (Node.file out) ∧
        out.length = 3200 + 0) ∧
      (convertDatToSegy none "input.dat" "output.segy" worldStaleOutput).world.fs.lookup
          "output.segy" = some (Node.file (List.replicate 3200 (0 : Byte))) :=
  ⟨rfl,
    (convertDatToSegy_output_size "input.dat" "output.segy" worldStaleOutput [] rfl rfl rfl).1,
    (convertDatToSegy_output_size "input.dat" "output.segy" worldStaleOutput [] rfl rfl rfl).2
      rfl⟩

/-- C3: after a conversion whose two streams open, dropping the first 3200 bytes of
the destination gives back the source content `b`, and byte `3200 + i` of the
destination is byte `i` of `b` for every `i` below the length of `b`. -/
theorem convertDatToSegy_payload_roundtrip (src dst : Path) (w : World) (b : List Byte)
    (hf : w.fs.lookup src = some (Node.file b)) (hr : w.fs.readable (w.fs.resolve src) = true)
    (hd : (ofstream_ctor w.fs dst).2.is_open = true) :
    ∃ out : List Byte,
      (convertDatToSegy none src dst w).world.fs.lookup dst = some (Node.file out) ∧
      out.drop 3200 = b ∧ ∀ (i : Nat) (hi : i < b.length), out[3200 + i]? = some b[i] := by
  have hlen : segyHeader.length = 3200 := segyHeader_length
  refine ⟨segyHeader ++ b, ?_, ?_, ?_⟩
  · rw [convert_success_lookup none src dst w b hf hr hd, stored_none]
  · exact List.drop_left' hlen
  · intro i hi
    rw [List.getElem?_append_right (by omega), hlen, Nat.add_sub_cancel_left,
      List.getElem?_eq_getElem hi]

/-- C3 at an `input.dat` holding 00 80 FF 00 0A 0D: the bytes after the header of
`output.segy` are these six, unchanged. -/
theorem convertDatToSegy_payload_roundtrip_witness :
    ∃ out : List Byte,
      (convertDatToSegy none "input.dat" "output.segy" worldBinaryInput).world.fs.lookup
          "output.segy" = some (Node.file out) ∧
      out.drop 3200 = [0x00, 0x80, 0xFF, 0x00, 0x0A, 0x0D] ∧
      ∀ (i : Nat) (hi : i < ([0x00, 0x80, 0xFF, 0x00, 0x0A, 0x0D] : List Byte).length),
        out[3200 + i]? = some ([0x00, 0x80, 0xFF, 0x00, 0x0A, 0x0D] : List Byte)[i] :=
  convertDatToSegy_payload_roundtrip "input.dat" "output.segy" worldBinaryInput
    [0x00, 0x80, 0xFF, 0x00, 0x0A, 0x0D] rfl rfl rfl

/-- C4: when the source does not open, the conversion returns, leaves the whole
filesystem, the destination included, as it was, prints nothing on standard output
and adds the source error line to standard error; so under every file size limit. -/
theorem convertDatToSegy_source_failure (lim : Option Nat) (src dst : Path) (w : World)
    (h : (ifstream_ctor w.fs src).is_open = false) :
    (convertDatToSegy lim src dst w).didReturn = true ∧
      (convertDatToSegy lim src dst w).world.fs.lookup dst = w.fs.lookup dst ∧
      (convertDatToSegy lim src dst w).world.fs = w.fs ∧
      (convertDatToSegy lim src dst w).world.cerr = w.cerr ++ [msgErrDat] ∧
      (convertDatToSegy lim src dst w).world.cout = w.cout := by
  rw [convert_source_closed lim src dst w h]
  exact ⟨rfl, rfl, rfl, rfl, rfl⟩

/-- C4 with `input.dat` missing and `output.segy` holding 09 09: the destination
still holds 09 09 and the error line is on standard error. -/
theorem convertDatToSegy_source_failure_witness :
    (ifstream_ctor worldOutputOnly.fs "input.dat").is_open = false ∧
      (convertDatToSegy none "input.dat" "output.segy" worldOutputOnly).world.fs.lookup
          "output.segy" = some (Node.file [9, 9]) ∧
      (convertDatToSegy none "input.dat" "output.segy" worldOutputOnly).world.cerr
        = ["Erro ao abrir o arquivo .dat"] :=
  ⟨rfl,
    (convertDatToSegy_source_failure none "input.dat" "output.segy" worldOutputOnly rfl).2.1,
    (convertDatToSegy_source_failure none "input.dat" "output.segy" worldOutputOnly rfl).2.2.2.1⟩

/-- C5 as stated fails: `input.dat` is a directory and nothing may be written.  The
source opens and the destination does not, yet the call sends no line to standard
error: the read throws before the destination is tried. -/
theorem convertDatToSegy_dest_failure_counterexample :
    (ifstream_ctor worldInputDirReadOnly.fs "input.dat").is_open = true ∧
      (ofstream_ctor worldInputDirReadOnly.fs "output.segy").2.is_open = false ∧
      (convertDatToSegy none "input.dat" "output.segy" worldInputDirReadOnly).didReturn = false ∧
      (convertDatToSegy none "input.dat" "output.segy" worldInputDirReadOnly).world.cerr = [] :=
  ⟨rfl, rfl, rfl, rfl⟩

/-- C5, amended: when the source opens and the destination does not, the call
leaves the whole filesystem as it was (no byte of the header or of the source buffer
is written to any file) and prints nothing on standard output, under every file size
limit.  When the source is read, the call returns and adds the destination error
line to standard error; when the read throws, it adds no line. -/
theorem convertDatToSegy_dest_failure (lim : Option Nat) (src dst : Path) (w : World)
    (hs : (ifstream_ctor w.fs src).is_open = true)
    (hd : (ofstream_ctor w.fs dst).2.is_open = false) :
    (convertDatToSegy lim src dst w).world.fs = w.fs ∧
      (∀ p : Path, (convertDatToSegy lim src dst w).world.fs.lookup p = w.fs.lookup p) ∧
      (convertDatToSegy lim src dst w).world.cout = w.cout ∧
      ((ifstream_ctor w.fs src).readAll w.fs ≠ none →
        (convertDatToSegy lim src dst w).didReturn = true ∧
        (convertDatToSegy lim src dst w).world.cerr = w.cerr ++ [msgErrSegy]) ∧
      ((ifstream_ctor w.fs src).readAll w.fs = none →
        (convertDatToSegy lim src dst w).didReturn = false ∧
        (convertDatToSegy lim src dst w).world.cerr = w.cerr) := by
  rcases source_cases w.fs src with hc | ⟨hf, hr⟩ | ⟨b, hf, hr⟩
  · rw [hc] at hs
    exact absurd hs (by decide)
  · rw [convert_read_throws lim src dst w hf hr, readAll_of_dir w.fs src hf hr]
    exact ⟨rfl, fun _ => rfl, rfl, fun h => absurd rfl h, fun _ => ⟨rfl, rfl⟩⟩
  · rw [convert_dest_closed lim src dst w b hf hr hd, readAll_of_file w.fs src b hf hr]
    exact ⟨rfl, fun _ => rfl, rfl, fun _ => ⟨rfl, rfl⟩, fun h => by cases h⟩

/-- C5, amended, with `input.dat` present and nothing open for writing:
`output.segy` is not created and the destination error line is on standard error. -/
theorem convertDatToSegy_dest_failure_witness :
    (convertDatToSegy none "input.dat" "output.segy" worldReadOnly).world.fs = worldReadOnly.fs ∧
      (convertDatToSegy none "input.dat" "output.segy" worldReadOnly).world.fs.lookup
          "output.segy" = none ∧
      (convertDatToSegy none "input.dat" "output.segy" worldReadOnly).world.cerr
        = ["Erro ao abrir o arquivo .SEGY"] :=
  ⟨(convertDatToSegy_dest_failure none "input.dat" "output.segy" worldReadOnly rfl rfl).1,
    (convertDatToSegy_dest_failure none "input.dat" "output.segy" worldReadOnly rfl rfl).2.1
      "output.segy",
    ((convertDatToSegy_dest_failure none "input.dat" "output.segy" worldReadOnly rfl rfl).2.2.2.1
      (by decide)).2⟩

/-- C6 as stated fails: `input.dat` and `./input.dat` are distinct paths that name one
file.  The conversion succeeds, and the second run leaves the destination holding
something else (6405 bytes) than the first run did (3205 bytes). -/
theorem convertDatToSegy_idempotent_counterexample :
    "input.dat" ≠ "./input.dat" ∧
      (convertDatToSegy none "input.dat" "./input.dat" worldInputOnly).didReturn = true ∧
      (convertDatToSegy none "input.dat" "./input.dat" worldInputOnly).world.cout
        = [msgSuccess] ∧
      (convertDatToSegy none "input.dat" "./input.dat"
          (convertDatToSegy none "input.dat" "./input.dat" worldInputOnly).world).world.fs.lookup
          "./input.dat"
        ≠ (convertDatToSegy none "input.dat" "./input.dat" worldInputOnly).world.fs.lookup
          "./input.dat" := by
  have h1 := iterate_aliased "input.dat" "./input.dat" 1 worldInputOnly [1, 2, 3, 4, 5]
    rfl rfl rfl rfl
  have h2 := iterate_aliased "input.dat" "./input.dat" 2 worldInputOnly [1, 2, 3, 4, 5]
    rfl rfl rfl rfl
  have hsucc := convert_success none "input.dat" "./input.dat" worldInputOnly [1, 2, 3, 4, 5]
    rfl rfl rfl
  refine ⟨by decide, ?_, ?_, ?_⟩
  · rw [hsucc]; rfl
  · rw [hsucc]; rfl
  · intro heq
    have h1a : (convertDatToSegy none "input.dat" "./input.dat" worldInputOnly).world.fs.lookup
        "./input.dat" = some (Node.file (List.replicate (segyHeaderSize * 1) (0 : Byte)
          ++ [1, 2, 3, 4, 5])) := h1
    have h2a : (convertDatToSegy none "input.dat" "./input.dat"
        (convertDatToSegy none "input.dat" "./input.dat" worldInputOnly).world).world.fs.lookup
        "./input.dat" = some (Node.file (List.replicate (segyHeaderSize * 2) (0 : Byte)
          ++ [1, 2, 3, 4, 5])) := h2
    rw [h1a, h2a] at heq
    refine file_ne_of_length _ _ ?_ heq
    rw [List.length_append, List.length_append, List.length_replicate, List.length_replicate]
    decide

/-- C6, amended: when the source and destination names resolve to different files,
the source is a readable regular file and the destination opens, a second run
leaves the filesystem, and so the destination content, as the first run left it;
so under every file size limit. -/
theorem convertDatToSegy_idempotent (lim : Option Nat) (src dst : Path) (w : World)
    (b : List Byte) (hne : w.fs.resolve src ≠ w.fs.resolve dst)
    (hf : w.fs.lookup src = some (Node.file b)) (hr : w.fs.readable (w.fs.resolve src) = true)
    (hd : (ofstream_ctor w.fs dst).2.is_open = true) :
    (convertDatToSegy lim src dst (convertDatToSegy lim src dst w).world).world.fs
        = (convertDatToSegy lim src dst w).world.fs ∧
      (convertDatToSegy lim src dst (convertDatToSegy lim src dst w).world).world.fs.lookup dst
        = (convertDatToSegy lim src dst w).world.fs.lookup dst := by
  obtain ⟨hres1, hread1, hwrite1, hnodes1⟩ := convert_frame lim src dst w
  have hdst1 := convert_success_lookup lim src dst w b hf hr hd
  have hf1 : (convertDatToSegy lim src dst w).world.fs.lookup src = some (Node.file b) := by
    unfold FileSystem.lookup
    rw [hres1, hnodes1 _ hne]
    exact hf
  have hr1 : (convertDatToSegy lim src dst w).world.fs.readable
      ((convertDatToSegy lim src dst w).world.fs.resolve src) = true := by
    rw [hread1, hres1]; exact hr
  have hd1 : (ofstream_ctor (convertDatToSegy lim src dst w).world.fs dst).2.is_open = true := by
    refine (ofstream_is_open_iff _ dst).2 ⟨?_, ?_⟩
    · rw [hdst1]; simp
    · rw [hwrite1, hres1]; exact ((ofstream_is_open_iff w.fs dst).1 hd).2
  have hfs : (convertDatToSegy lim src dst (convertDatToSegy lim src dst w).world).world.fs
      = (convertDatToSegy lim src dst w).world.fs := by
    rw [convert_success lim src dst (convertDatToSegy lim src dst w).world b hf1 hr1 hd1]
    rw [convert_success lim src dst w b hf hr hd]
    simp only [Run.world, Function.update_idem]
  exact ⟨hfs, by rw [hfs]⟩

/-- C6, amended, on `input.dat` and `output.segy`, which are different files: the
second run leaves the filesystem as the first run left it. -/
theorem convertDatToSegy_idempotent_witness :
    worldInputOnly.fs.resolve "input.dat" ≠ worldInputOnly.fs.resolve "output.segy" ∧
      (convertDatToSegy none "input.dat" "output.segy"
          (convertDatToSegy none "input.dat" "output.segy" worldInputOnly).world).world.fs
        = (convertDatToSegy none "input.dat" "output.segy" worldInputOnly).world.fs :=
  ⟨by decide,
    (convertDatToSegy_idempotent none "input.dat" "output.segy" worldInputOnly [1, 2, 3, 4, 5]
      (by decide) rfl rfl rfl).1⟩

/-- C7 as stated fails: `input.dat` is a path other than the destination path
`./input.dat`, and it names the same file; after the conversion it no longer holds
what it held before. -/
theorem convertDatToSegy_frame_counterexample :
    "input.dat" ≠ "./input.dat" ∧
      worldInputOnly.fs.lookup "input.dat" = some (Node.file [1, 2, 3, 4, 5]) ∧
      (convertDatToSegy none "input.dat" "./input.dat" worldInputOnly).world.fs.lookup "input.dat"
        ≠ worldInputOnly.fs.lookup "input.dat" := by
  have hstep : (convertDatToSegy none "input.dat" "./input.dat" worldInputOnly).world.fs.lookup
      "input.dat" = some (Node.file (segyHeader ++ [1, 2, 3, 4, 5])) := by
    rw [convert_success none "input.dat" "./input.dat" worldInputOnly [1, 2, 3, 4, 5] rfl rfl rfl]
    exact Function.update_same (0 : FileId) (some (Node.file (segyHeader ++ [1, 2, 3, 4, 5])))
      worldInputOnly.fs.nodes
  refine ⟨by decide, rfl, ?_⟩
  rw [hstep]
  refine file_ne_of_length _ _ ?_
  rw [List.length_append, segyHeader_length]
  decide

/-- C7, amended: on every path through the conversion, the exception included, a
name that resolves to another file than the destination name leads after the run to
what it led to before (the same content, or still nothing), and may be opened
exactly as before; in particular the source, when it is another file than the
destination.  So under every file size limit. -/
theorem convertDatToSegy_frame (lim : Option Nat) (src dst : Path) (w : World) (p : Path)
    (hp : w.fs.resolve p ≠ w.fs.resolve dst) :
    (convertDatToSegy lim src dst w).world.fs.lookup p = w.fs.lookup p ∧
      (convertDatToSegy lim src dst w).world.fs.readable
          ((convertDatToSegy lim src dst w).world.fs.resolve p)
        = w.fs.readable (w.fs.resolve p) ∧
      (convertDatToSegy lim src dst w).world.fs.writable
          ((convertDatToSegy lim src dst w).world.fs.resolve p)
        = w.fs.writable (w.fs.resolve p) := by
  obtain ⟨hres, hread, hwrite, hnodes⟩ := convert_frame lim src dst w
  refine ⟨?_, by rw [hread, hres], by rw [hwrite, hres]⟩
  unfold FileSystem.lookup
  rw [hres, hnodes _ hp]

/-- C7, amended, at the source of a successful run: `input.dat` still holds
01 02 03 04 05 after the conversion to `output.segy`, another file. -/
theorem convertDatToSegy_frame_witness :
    worldInputOnly.fs.resolve "input.dat" ≠ worldInputOnly.fs.resolve "output.segy" ∧
      (convertDatToSegy none "input.dat" "output.segy" worldInputOnly).world.fs.lookup "input.dat"
        = some (Node.file [1, 2, 3, 4, 5]) :=
  ⟨by decide,
    (convertDatToSegy_frame none "input.dat" "output.segy" worldInputOnly "input.dat"
      (by decide)).1⟩

/-- C8 as stated fails twice.  Under a file size limit of 1000 bytes the source and
the destination open and the success line is printed, but `output.segy` holds at
most 1000 bytes, not the header followed by the data.  And with `input.dat` a
directory the call does not return and prints no line at all, neither the success
line nor an error line. -/
theorem convertDatToSegy_one_outcome_counterexample :
    ((ifstream_ctor worldInputOnly.fs "input.dat").is_open = true ∧
        (ofstream_ctor worldInputOnly.fs "output.segy").2.is_open = true ∧
        (convertDatToSegy (some 1000) "input.dat" "output.segy" worldInputOnly).world.cout
          = [msgSuccess] ∧
        (∃ out : List Byte,
          (convertDatToSegy (some 1000) "input.dat" "output.segy"
              worldInputOnly).world.fs.lookup "output.segy" = some (Node.file out) ∧
          out.length ≤ 1000) ∧
        (convertDatToSegy (some 1000) "input.dat" "output.segy"
            worldInputOnly).world.fs.lookup "output.segy"
          ≠ some (Node.file (List.replicate 3200 (0 : Byte) ++ [1, 2, 3, 4, 5]))) ∧
      ((ifstream_ctor worldInputDir.fs "input.dat").is_open = true ∧
        (convertDatToSegy none "input.dat" "output.segy" worldInputDir).didReturn = false ∧
        (convertDatToSegy none "input.dat" "output.segy" worldInputDir).world.cout = [] ∧
        (convertDatToSegy none "input.dat" "output.segy" worldInputDir).world.cerr = []) := by
  have hsucc := convert_success (some 1000) "input.dat" "output.segy" worldInputOnly
    [1, 2, 3, 4, 5] rfl rfl rfl
  have hlook := convert_success_lookup (some 1000) "input.dat" "output.segy" worldInputOnly
    [1, 2, 3, 4, 5] rfl rfl rfl
  have hlen := stored_length_le 1000 [1, 2, 3, 4, 5]
  refine ⟨⟨rfl, rfl, ?_, ⟨_, hlook, hlen⟩, ?_⟩, rfl, rfl, rfl, rfl⟩
  · rw [hsucc]; rfl
  · rw [hlook]
    refine file_ne_of_length _ _ ?_
    rw [List.length_append, List.length_replicate]
    intro h
    rw [h] at hlen
    exact absurd hlen (by decide)

/-- C8, amended: every call ends in exactly one of four ways, under every file size
limit.  The success line is added to standard output exactly when the source
opened, was read, and the destination opened; the destination then holds what of
the header and the source buffer the writes stored, which the routine does not
test.  A call whose source did not open returns with the source error line alone
added to standard error; a call whose source was read and whose destination did not
open returns with the destination error line alone; a call whose read throws does
not return and adds no line. -/
theorem convertDatToSegy_one_outcome (lim : Option Nat) (src dst : Path) (w : World) :
    ((convertDatToSegy lim src dst w).world.cout = w.cout ++ [msgSuccess] ↔
        ((ifstream_ctor w.fs src).is_open = true ∧
          (ifstream_ctor w.fs src).readAll w.fs ≠ none ∧
          (ofstream_ctor w.fs dst).2.is_open = true)) ∧
      (((convertDatToSegy lim src dst w).didReturn = true ∧
          (ifstream_ctor w.fs src).is_open = true ∧
          (ofstream_ctor w.fs dst).2.is_open = true ∧
          (∃ data : List Byte, (ifstream_ctor w.fs src).readAll w.fs = some data ∧
            (convertDatToSegy lim src dst w).world.fs.lookup dst
              = some (Node.file (stored lim data))) ∧
          (convertDatToSegy lim src dst w).world.cout = w.cout ++ [msgSuccess] ∧
          (convertDatToSegy lim src dst w).world.cerr = w.cerr) ∨
        ((convertDatToSegy lim src dst w).didReturn = true ∧
          (ifstream_ctor w.fs src).is_open = false ∧
          (convertDatToSegy lim src dst w).world.cout = w.cout ∧
          (convertDatToSegy lim src dst w).world.cerr = w.cerr ++ [msgErrDat]) ∨
        ((convertDatToSegy lim src dst w).didReturn = true ∧
          (ifstream_ctor w.fs src).is_open = true ∧
          (ifstream_ctor w.fs src).readAll w.fs ≠ none ∧
          (ofstream_ctor w.fs dst).2.is_open = false ∧
          (convertDatToSegy lim src dst w).world.cout = w.cout ∧
          (convertDatToSegy lim src dst w).world.cerr = w.cerr ++ [msgErrSegy]) ∨
        ((convertDatToSegy lim src dst w).didReturn = false ∧
          (ifstream_ctor w.fs src).is_open = true ∧
          (ifstream_ctor w.fs src).readAll w.fs = none ∧
          (convertDatToSegy lim src dst w).world.cout = w.cout ∧
          (convertDatToSegy lim src dst w).world.cerr = w.cerr)) := by
  rcases source_cases w.fs src with hs | ⟨hf, hr⟩ | ⟨b, hf, hr⟩
  · rw [convert_source_closed lim src dst w hs, hs]
    simp [Run.world, Run.didReturn]
  · have hs := (ifstream_is_open_iff w.fs src).2 ⟨⟨_, hf⟩, hr⟩
    rw [convert_read_throws lim src dst w hf hr, hs, readAll_of_dir w.fs src hf hr]
    simp [Run.world, Run.didReturn]
  · have hs := ifstream_open_of_file w.fs src b hf hr
    cases hd : (ofstream_ctor w.fs dst).2.is_open
    · rw [convert_dest_closed lim src dst w b hf hr hd, hs, readAll_of_file w.fs src b hf hr]
      simp [Run.world, Run.didReturn]
    · have hlook := convert_success_lookup lim src dst w b hf hr hd
      rw [convert_success lim src dst w b hf hr hd] at hlook ⊢
      rw [hs, readAll_of_file w.fs src b hf hr]
      refine ⟨⟨fun _ => ⟨rfl, by simp, rfl⟩, fun _ => rfl⟩, Or.inl ⟨rfl, rfl, rfl, ⟨b, rfl, hlook⟩,
        rfl, rfl⟩⟩

/-- The process ends with status 0 whenever the conversion returns. -/
theorem main_of_returned (lim : Option Nat) (w : World)
    (h : (convertDatToSegy lim "input.dat" "output.segy" w).didReturn = true) :
    main lim w = ProcessEnd.exited 0 (convertDatToSegy lim "input.dat" "output.segy" w).world := by
  cases hrun : convertDatToSegy lim "input.dat" "output.segy" w with
  | returned w1 => simp only [main, hrun, Run.world]
  | threw w1 =>
    rw [hrun] at h
    exact Bool.noConfusion h

/-- C9 as stated fails: with `input.dat` a directory, `main` does not return status 0;
the read throws, nothing catches the exception and the process is aborted. -/
theorem main_exit_status_counterexample :
    (main none worldInputDir).exitStatus = none ∧ (main none worldInputDir).exitStatus ≠ some 0 :=
  ⟨rfl, by decide⟩

/-- C9, amended: unless `input.dat` is a directory that opens for reading, `main`
runs the conversion on `input.dat` and `output.segy` and returns exit status 0,
whether the conversion succeeded, failed to open the source, or failed to open the
destination; so under every file size limit. -/
theorem main_exit_status (lim : Option Nat) (w : World)
    (hnd : ¬ (w.fs.lookup "input.dat" = some Node.dir ∧
      w.fs.readable (w.fs.resolve "input.dat") = true)) :
    main lim w = ProcessEnd.exited 0 (convertDatToSegy lim "input.dat" "output.segy" w).world ∧
      (main lim w).exitStatus = some 0 := by
  have hret : (convertDatToSegy lim "input.dat" "output.segy" w).didReturn = true := by
    rcases source_cases w.fs "input.dat" with hs | hdir | ⟨b, hf, hr⟩
    · rw [convert_source_closed lim "input.dat" "output.segy" w hs]; rfl
    · exact absurd hdir hnd
    · cases hd : (ofstream_ctor w.fs "output.segy").2.is_open
      · rw [convert_dest_closed lim "input.dat" "output.segy" w b hf hr hd]; rfl
      · rw [convert_success lim "input.dat" "output.segy" w b hf hr hd]; rfl
  have hmain := main_of_returned lim w hret
  exact ⟨hmain, by rw [hmain]; rfl⟩

/-- C9, amended, on the three outcomes: a successful conversion, a missing
`input.dat`, and an `output.segy` that does not open all end with status 0. -/
theorem main_exit_status_witness :
    (main none worldInputOnly).exitStatus = some 0 ∧
      (main none worldEmpty).exitStatus = some 0 ∧
      (main none worldReadOnly).exitStatus = some 0 :=
  ⟨(main_exit_status none worldInputOnly (by decide)).2,
    (main_exit_status none worldEmpty (by decide)).2,
    (main_exit_status none worldReadOnly (by decide)).2⟩

/-- C10: the source is read in full before the destination is opened.  When the
source and destination names resolve to one file holding `b`, the run returns and
leaves that file holding 3200 zero bytes followed by `b`, of length `3200 + |b|`,
which is not the bare header unless `b` is empty; and `n` runs in a row leave
`3200 * n` zero bytes followed by `b`. -/
theorem convertDatToSegy_aliased (src dst : Path) (w : World) (b : List Byte)
    (hres : w.fs.resolve src = w.fs.resolve dst)
    (hf : w.fs.lookup src = some (Node.file b)) (hr : w.fs.readable (w.fs.resolve src) = true)
    (hd : w.fs.writable (w.fs.resolve dst) = true) :
    (convertDatToSegy none src dst w).world.fs.lookup dst
        = some (Node.file (List.replicate 3200 (0 : Byte) ++ b)) ∧
      (∃ out : List Byte,
        (convertDatToSegy none src dst w).world.fs.lookup dst = some (Node.file out) ∧
        out.length = 3200 + b.length) ∧
      (b ≠ [] → (convertDatToSegy none src dst w).world.fs.lookup dst
        ≠ some (Node.file (List.replicate 3200 (0 : Byte)))) ∧
      ∀ n : Nat, ((fun v => (convertDatToSegy none src dst v).world)^[n] w).fs.lookup dst
        = some (Node.file (List.replicate (3200 * n) (0 : Byte) ++ b)) := by
  have hc : (convertDatToSegy none src dst w).world.fs.lookup dst
      = some (Node.file (List.replicate 3200 (0 : Byte) ++ b)) :=
    aliased_step src dst w b hres hf hr hd
  refine ⟨hc, ⟨_, hc, ?_⟩, ?_, ?_⟩
  · rw [List.length_append, List.length_replicate]
  · intro hb heq
    rw [hc] at heq
    have hlist := Node.file.inj (Option.some.inj heq)
    rw [List.append_right_eq_self] at hlist
    exact hb hlist
  · intro n
    exact iterate_aliased src dst n w b hres hf hr hd

/-- C10 on `input.dat` as both source and destination: one run leaves 3200 zero
bytes followed by 01 02 03 04 05, two runs leave 6400 zero bytes followed by them. -/
theorem convertDatToSegy_aliased_witness :
    (convertDatToSegy none "input.dat" "input.dat" worldInputOnly).world.fs.lookup "input.dat"
        = some (Node.file (List.replicate 3200 (0 : Byte) ++ [1, 2, 3, 4, 5])) ∧
      ((fun v => (convertDatToSegy none "input.dat" "input.dat" v).world)^[2]
          worldInputOnly).fs.lookup "input.dat"
        = some (Node.file (List.replicate (3200 * 2) (0 : Byte) ++ [1, 2, 3, 4, 5])) :=
  ⟨(convertDatToSegy_aliased "input.dat" "input.dat" worldInputOnly [1, 2, 3, 4, 5]
      rfl rfl rfl rfl).1,
    (convertDatToSegy_aliased "input.dat" "input.dat" worldInputOnly [1, 2, 3, 4, 5]
      rfl rfl rfl rfl).2.2.2 2⟩

end SEisPro
